import Mathlib

/-!
Verification of the ingestion decision & execution engine of
`mcp_server_korean_traffic` against its specification.

The Python sources are shallowly embedded:

* `decide_collection` — `src/ingestion/scheduler.py` (time-of-day policy);
* `check_budget` — `src/ingestion/budget.py` (daily call-budget guard);
* `run_snapshot_once` — `src/ingestion/runner/snapshot_runner.py`
  (per-page fetch/log/ingest/commit loop with dynamic page-count probe);
* `run_orchestrator_once` — `src/ingestion/orchestrator.py` (gate chain);
* `compute_payload_hash` — `src/ingestion/pipeline/raw_ingest.py`
  (canonical JSON serialisation + SHA-256 hex digest).

External collaborators (HTTP provider, MySQL connection, clock) are embedded
as explicit oracles/state: fetching and ledger/ingest writes may fail, and
the database is a pair of committed/pending write lists with commit/rollback
moving or dropping the pending part.  Python `datetime` values are embedded
as civil `DateTime` records in the fixed Asia/Seoul timezone (whole seconds;
the zone has no DST so civil arithmetic is uniform).
-/

namespace KoreanTraffic

/-! ## Civil time model (Asia/Seoul, whole seconds) -/

/-- A civil calendar date (as Python's `datetime.date`). -/
structure Date where
  year : Nat
  month : Nat
  day : Nat
deriving DecidableEq, Repr

/-- A timezone-aware instant, already expressed in the fixed civil timezone
(Asia/Seoul), at whole-second precision (as Python's aware `datetime`). -/
structure DateTime where
  year : Nat
  month : Nat
  day : Nat
  hour : Nat
  minute : Nat
  second : Nat
deriving DecidableEq, Repr

/-- The calendar-date part of an instant (Python `datetime.date()`). -/
def DateTime.date (t : DateTime) : Date := ⟨t.year, t.month, t.day⟩

/-- Seconds since local midnight. -/
def DateTime.timeOfDay (t : DateTime) : Nat :=
  t.hour * 3600 + t.minute * 60 + t.second

/-- A structurally valid instant: calendar fields in range. -/
def DateTime.Valid (t : DateTime) : Prop :=
  1 ≤ t.month ∧ t.month ≤ 12 ∧ 1 ≤ t.day ∧ t.day ≤ 31 ∧
  t.hour < 24 ∧ t.minute < 60 ∧ t.second < 60

instance (t : DateTime) : Decidable t.Valid := by
  unfold DateTime.Valid; infer_instance

/-- Day number of a civil date (days since 1970-01-01, the standard
`days_from_civil` calendar algorithm); used to take exact differences of
instants, as Python's aware-`datetime` subtraction does. -/
def daysFromCivil (y m d : Int) : Int :=
  let y' : Int := if m ≤ 2 then y - 1 else y
  let era : Int := (if 0 ≤ y' then y' else y' - 399) / 400
  let yoe : Int := y' - era * 400
  let mp : Int := (m + 9) % 12
  let doy : Int := (153 * mp + 2) / 5 + d - 1
  let doe : Int := yoe * 365 + yoe / 4 - yoe / 100 + doy
  era * 146097 + doe - 719468

/-- An instant as a count of seconds (local epoch seconds); differences of
this function embed `(a - b).total_seconds()` on aware datetimes. -/
def DateTime.toSeconds (t : DateTime) : Int :=
  daysFromCivil t.year t.month t.day * 86400 + t.timeOfDay

/-! ## TimePolicy — `decide_collection` (`src/ingestion/scheduler.py`) -/

/-- Commute-window suggested interval (`COMMUTE_INTERVAL_SECONDS`). -/
def COMMUTE_INTERVAL_SECONDS : Int := 120

/-- Normal-window suggested interval (`NORMAL_INTERVAL_SECONDS`). -/
def NORMAL_INTERVAL_SECONDS : Int := 900

/-- The result dict of `decide_collection`. -/
structure PolicyDecision where
  should_collect : Bool
  interval_seconds : Int
  time_bucket : String
deriving DecidableEq, Repr

/-- Embedding of `decide_collection(now=...)` from `src/ingestion/scheduler.py`.

The input is already an aware instant in Asia/Seoul (the Python function
raises on zone-naive input and otherwise converts to Asia/Seoul; the embedding
works directly with the converted civil instant).  The night branch mirrors
`now.replace(hour=5, minute=0, second=1)` followed by a one-day roll when
`now >= next_collect_time`, and the `int(...)` of the exact difference. -/
def decide_collection (now : DateTime) : PolicyDecision :=
  let time_seconds := now.timeOfDay
  let morning_start := 7 * 3600
  let morning_end := 9 * 3600 + 30 * 60
  let evening_start := 17 * 3600 + 30 * 60
  let evening_end := 20 * 3600
  let night_start := 30 * 60
  let night_end := 5 * 3600
  if night_start ≤ time_seconds ∧ time_seconds ≤ night_end then
    -- next eligible instant is 05:00:01 (second-of-day 18001), rolled one
    -- day forward when the instant is already past it
    let next_collect_sod : Int := 5 * 3600 + 1
    let next_collect_sod : Int :=
      if (time_seconds : Int) ≥ next_collect_sod then next_collect_sod + 86400
      else next_collect_sod
    { should_collect := false
      interval_seconds := next_collect_sod - (time_seconds : Int)
      time_bucket := "night" }
  else if morning_start ≤ time_seconds ∧ time_seconds ≤ morning_end then
    { should_collect := true
      interval_seconds := COMMUTE_INTERVAL_SECONDS
      time_bucket := "morning" }
  else if evening_start ≤ time_seconds ∧ time_seconds ≤ evening_end then
    { should_collect := true
      interval_seconds := COMMUTE_INTERVAL_SECONDS
      time_bucket := "evening" }
  else
    { should_collect := true
      interval_seconds := NORMAL_INTERVAL_SECONDS
      time_bucket := "normal" }

/-! ## BudgetGuard — `check_budget` (`src/ingestion/budget.py`) -/

/-- The result dict of `check_budget`. -/
structure BudgetDecision where
  should_collect : Bool
  remaining_calls : Int
  reason : String
deriving DecidableEq, Repr

/-- Embedding of `check_budget(today=..., used_calls_today=..., required_calls=...,
daily_limit=1000)` from `src/ingestion/budget.py`.  Pure; `today` is carried
but (as in the source) takes no part in the decision. -/
def check_budget (today : Date) (used_calls_today required_calls : Int)
    (daily_limit : Int := 1000) : BudgetDecision :=
  let _ := today
  let remaining_calls := daily_limit - used_calls_today
  let remaining_calls := if remaining_calls < 0 then 0 else remaining_calls
  if remaining_calls ≥ required_calls then
    { should_collect := true, remaining_calls := remaining_calls
      reason := "budget_ok" }
  else
    { should_collect := false, remaining_calls := remaining_calls
      reason := "budget_exceeded" }

/-! ## Content hashing — `compute_payload_hash` (`src/ingestion/pipeline/raw_ingest.py`)

`compute_payload_hash(raw_payload)` sorts the dict's items, serialises them as
canonical JSON (`json.dumps(..., ensure_ascii=False, separators=(",", ":"))`),
UTF-8-encodes the string and returns the SHA-256 hex digest.  The whole
pipeline is embedded executably: item sort, JSON string escaping, UTF-8
bytes, the FIPS-180-4 SHA-256 compression, and lowercase hex rendering. -/

/-- One flat string-keyed API record (a parsed XML `<row>`). -/
abbrev Row := List (String × String)

/-- Python's tuple comparison on dict items, as used by `sorted(d.items())`:
lexicographic on `(key, value)`.  (Keys of a dict are distinct, so the value
component never actually decides.) -/
def itemLe (p q : String × String) : Prop :=
  p.1 < q.1 ∨ (p.1 = q.1 ∧ p.2 ≤ q.2)

instance : DecidableRel itemLe := by
  unfold itemLe; infer_instance

instance : IsTotal (String × String) itemLe where
  total p q := by
    rcases lt_trichotomy p.1 q.1 with h | h | h
    · exact Or.inl (Or.inl h)
    · rcases le_total p.2 q.2 with h2 | h2
      · exact Or.inl (Or.inr ⟨h, h2⟩)
      · exact Or.inr (Or.inr ⟨h.symm, h2⟩)
    · exact Or.inr (Or.inl h)

instance : IsTrans (String × String) itemLe where
  trans p q s h1 h2 := by
    rcases h1 with h1 | ⟨h1e, h1v⟩
    · rcases h2 with h2 | ⟨h2e, _⟩
      · exact Or.inl (h1.trans h2)
      · exact Or.inl (h2e ▸ h1)
    · rcases h2 with h2 | ⟨h2e, h2v⟩
      · exact Or.inl (h1e ▸ h2)
      · exact Or.inr ⟨h1e.trans h2e, h1v.trans h2v⟩

instance : IsAntisymm (String × String) itemLe where
  antisymm p q h1 h2 := by
    rcases h1 with h1 | ⟨h1e, h1v⟩
    · rcases h2 with h2 | ⟨h2e, _⟩
      · exact absurd (h1.trans h2) (lt_irrefl _)
      · exact absurd h1 (h2e ▸ lt_irrefl _)
    · rcases h2 with h2 | ⟨_, h2v⟩
      · exact absurd h2 (h1e ▸ lt_irrefl _)
      · exact Prod.ext h1e (le_antisymm h1v h2v)

/-- One lowercase hexadecimal digit. -/
def hexChar (n : Nat) : Char :=
  if n < 10 then Char.ofNat (48 + n) else Char.ofNat (87 + n)

/-- JSON string escaping as done by `json.dumps(..., ensure_ascii=False)`:
`"` and `\` escaped, the named control escapes, `\u00xx` for the remaining
control characters, everything else verbatim. -/
def escapeChar (c : Char) : List Char :=
  if c = '"' then ['\\', '"']
  else if c = '\\' then ['\\', '\\']
  else if c = '\n' then ['\\', 'n']
  else if c = '\r' then ['\\', 'r']
  else if c = '\t' then ['\\', 't']
  else if c = '\x08' then ['\\', 'b']
  else if c = '\x0c' then ['\\', 'f']
  else if c.toNat < 32 then
    ['\\', 'u', '0', '0', hexChar (c.toNat / 16), hexChar (c.toNat % 16)]
  else [c]

/-- One serialised item `"k":"v"`: both strings escaped and quoted, joined
by the compact `:` separator. -/
def itemChars (kv : String × String) : List Char :=
  '"' :: (kv.1.data.map escapeChar).flatten ++ '"' :: ':' :: '"' ::
    (kv.2.data.map escapeChar).flatten ++ ['"']

/-- Serialised items joined by the compact `,` separator. -/
def itemsChars : List (String × String) → List Char
  | [] => []
  | [kv] => itemChars kv
  | kv :: rest => itemChars kv ++ ',' :: itemsChars rest

/-- Canonical JSON of an item list (already sorted):
`{"k1":"v1","k2":"v2",...}`, compact separators, `{}` for the empty dict —
`json.dumps(sorted_payload, ensure_ascii=False, separators=(",", ":"))` for a
flat string-to-string dict. -/
def jsonSerializeItems (items : List (String × String)) : String :=
  String.mk ('{' :: itemsChars items ++ ['}'])

/-- UTF-8 encoding of one character (code point to bytes). -/
def utf8Bytes (c : Char) : List Nat :=
  let n := c.toNat
  if n < 128 then [n]
  else if n < 2048 then [192 + n / 64, 128 + n % 64]
  else if n < 65536 then [224 + n / 4096, 128 + n / 64 % 64, 128 + n % 64]
  else [240 + n / 262144, 128 + n / 4096 % 64, 128 + n / 64 % 64, 128 + n % 64]

/-- Encoding `s.encode("utf-8")` as a byte list. -/
def strUtf8 (s : String) : List Nat :=
  (s.data.map utf8Bytes).flatten

/-- Truncation to a 32-bit word. -/
def w32 (n : Nat) : Nat := n % 4294967296

/-- Right rotation of a 32-bit word. -/
def rotr32 (n x : Nat) : Nat := w32 ((x >>> n) ||| (x <<< (32 - n)))

/-- SHA-256 `Ch`. -/
def shaCh (x y z : Nat) : Nat := (x &&& y) ^^^ ((x ^^^ 4294967295) &&& z)

/-- SHA-256 `Maj`. -/
def shaMaj (x y z : Nat) : Nat := (x &&& y) ^^^ (x &&& z) ^^^ (y &&& z)

/-- SHA-256 `Σ0`. -/
def bigSigma0 (x : Nat) : Nat := rotr32 2 x ^^^ rotr32 13 x ^^^ rotr32 22 x

/-- SHA-256 `Σ1`. -/
def bigSigma1 (x : Nat) : Nat := rotr32 6 x ^^^ rotr32 11 x ^^^ rotr32 25 x

/-- SHA-256 `σ0`. -/
def smallSigma0 (x : Nat) : Nat := rotr32 7 x ^^^ rotr32 18 x ^^^ (x >>> 3)

/-- SHA-256 `σ1`. -/
def smallSigma1 (x : Nat) : Nat := rotr32 17 x ^^^ rotr32 19 x ^^^ (x >>> 10)

/-- The SHA-256 round constants (decimal rendering of the FIPS 180-4
table). -/
def shaK : List Nat :=
  [1116352408, 1899447441, 3049323471, 3921009573, 961987163,
   1508970993, 2453635748, 2870763221, 3624381080, 310598401,
   607225278, 1426881987, 1925078388, 2162078206, 2614888103,
   3248222580, 3835390401, 4022224774, 264347078, 604807628,
   770255983, 1249150122, 1555081692, 1996064986, 2554220882,
   2821834349, 2952996808, 3210313671, 3336571891, 3584528711,
   113926993, 338241895, 666307205, 773529912, 1294757372,
   1396182291, 1695183700, 1986661051, 2177026350, 2456956037,
   2730485921, 2820302411, 3259730800, 3345764771, 3516065817,
   3600352804, 4094571909, 275423344, 430227734, 506948616,
   659060556, 883997877, 958139571, 1322822218, 1537002063,
   1747873779, 1955562222, 2024104815, 2227730452, 2361852424,
   2428436474, 2756734187, 3204031479, 3329325298]

/-- The SHA-256 initial hash value (decimal rendering). -/
def shaH0 : List Nat :=
  [1779033703, 3144134277, 1013904242, 2773480762, 1359893119,
   2600822924, 528734635, 1541459225]

/-- Big-endian byte rendering of `n`, `k` bytes wide. -/
def toBytesBE (k n : Nat) : List Nat :=
  (List.range k).map fun i => n >>> (8 * (k - 1 - i)) % 256

/-- SHA-256 message padding: `0x80`, zeros to 56 mod 64, then the bit length
as 8 big-endian bytes. -/
def shaPad (msg : List Nat) : List Nat :=
  let zeros := (119 - msg.length % 64) % 64
  msg ++ [128] ++ List.replicate zeros 0 ++ toBytesBE 8 (8 * msg.length)

/-- Group bytes into big-endian 32-bit words. -/
def toWordsBE : List Nat → List Nat
  | b1 :: b2 :: b3 :: b4 :: rest =>
      (((b1 * 256 + b2) * 256 + b3) * 256 + b4) :: toWordsBE rest
  | _ => []

/-- One extension step of the message schedule, on the reversed prefix of
words computed so far. -/
def extendStep (acc : List Nat) : List Nat :=
  w32 (smallSigma1 (acc.getD 1 0) + acc.getD 6 0 +
    smallSigma0 (acc.getD 14 0) + acc.getD 15 0) :: acc

/-- The 64-entry message schedule of one block. -/
def messageSchedule (ws : List Nat) : List Nat :=
  ((List.range 48).foldl (fun acc _ => extendStep acc) ws.reverse).reverse

/-- The SHA-256 working state `(a,…,h)`. -/
structure SHAState where
  a : Nat
  b : Nat
  c : Nat
  d : Nat
  e : Nat
  f : Nat
  g : Nat
  h : Nat

/-- One SHA-256 compression round; `kw` is the scheduled word paired with the
round constant. -/
def shaRound (s : SHAState) (kw : Nat × Nat) : SHAState :=
  let t1 := w32 (s.h + bigSigma1 s.e + shaCh s.e s.f s.g + kw.1 + kw.2)
  let t2 := w32 (bigSigma0 s.a + shaMaj s.a s.b s.c)
  ⟨w32 (t1 + t2), s.a, s.b, s.c, w32 (s.d + t1), s.e, s.f, s.g⟩

/-- Compression of one 64-byte block into the running hash words. -/
def compressBlock (hs : List Nat) (block : List Nat) : List Nat :=
  let ws := messageSchedule (toWordsBE block)
  let s0 : SHAState :=
    ⟨hs.getD 0 0, hs.getD 1 0, hs.getD 2 0, hs.getD 3 0,
     hs.getD 4 0, hs.getD 5 0, hs.getD 6 0, hs.getD 7 0⟩
  let s := (ws.zip shaK).foldl shaRound s0
  [w32 (hs.getD 0 0 + s.a), w32 (hs.getD 1 0 + s.b),
   w32 (hs.getD 2 0 + s.c), w32 (hs.getD 3 0 + s.d),
   w32 (hs.getD 4 0 + s.e), w32 (hs.getD 5 0 + s.f),
   w32 (hs.getD 6 0 + s.g), w32 (hs.getD 7 0 + s.h)]

/-- Split a byte list into 64-byte blocks. -/
def chunks64 (l : List Nat) : List (List Nat) :=
  if h : l = [] then []
  else
    have : (l.drop 64).length < l.length := by
      cases l with
      | nil => exact absurd rfl h
      | cons a t => simp [List.length_drop]; omega
    l.take 64 :: chunks64 (l.drop 64)
termination_by l.length

/-- SHA-256 of a byte message, as the eight 32-bit hash words. -/
def sha256Words (msg : List Nat) : List Nat :=
  (chunks64 (shaPad msg)).foldl compressBlock shaH0

/-- The 64 hex-digit values (each `< 16`) of a digest's hex rendering,
big-endian within each word — `hashlib`'s `hexdigest()` digit sequence. -/
def hexDigitsOfWord (w : Nat) : List Nat :=
  (List.range 8).map fun i => w >>> (4 * (7 - i)) % 16

/-- The digit values of `compute_payload_hash` before character rendering. -/
def payloadHashDigits (raw_payload : Row) : List Nat :=
  ((sha256Words (strUtf8 (jsonSerializeItems
    (List.insertionSort itemLe raw_payload)))).map hexDigitsOfWord).flatten

/-- Embedding of `compute_payload_hash(raw_payload)` from
`src/ingestion/pipeline/raw_ingest.py`: sort the items, canonical JSON,
UTF-8 encode, SHA-256, lowercase hex digest. -/
def compute_payload_hash (raw_payload : Row) : String :=
  String.mk ((payloadHashDigits raw_payload).map hexChar)

/-! ## External collaborators and database state

The provider, the MySQL connection and the ledger/ingest writes are embedded
as oracles and explicit state.  `Except String` stands for a raised Python
exception carrying `str(e)`.  Clock readings are elided: in the source they
only populate the `called_at` / `collected_at` payload columns, which no
claim inspects. -/

/-- An inclusive page range `(page_start, page_end)`. -/
abbrev Range := Nat × Nat

/-- The dict returned by `provider.fetch_page`. -/
structure PageData where
  total_count : Option Int
  rows : List Row
deriving DecidableEq, Repr

/-- The environment of one run: the provider and the database driver's
behaviour.  `fetch r` is `provider.fetch_page` on range `r`; `log r status`
is the outcome of the `INSERT`-statement of `insert_call_log`; `ingest r rows`
is the outcome of `cursor.executemany` in `ingest_rows_page`, returning the
driver's `rowcount` on success. -/
structure Env where
  fetch : Range → Except String PageData
  log : Range → String → Except String Unit
  ingest : Range → List Row → Except String Int

/-- A durable write staged or committed on the MySQL connection. -/
inductive DBWrite
  | ledger (snapshot_id : String) (page_start page_end : Nat) (status : String)
  | content (snapshot_id : String) (page_start page_end : Nat) (rows : List Row)
deriving DecidableEq, Repr

/-- The MySQL connection's transactional state: committed writes plus the
uncommitted writes of the current transaction. -/
structure DB where
  committed : List DBWrite
  pending : List DBWrite
deriving DecidableEq, Repr

/-- Stage one write in the current transaction. -/
def DB.push (db : DB) (w : DBWrite) : DB :=
  { db with pending := db.pending ++ [w] }

/-- Embedding of `mysql_conn.commit()`. -/
def DB.commit (db : DB) : DB :=
  ⟨db.committed ++ db.pending, []⟩

/-- Embedding of `mysql_conn.rollback()`. -/
def DB.rollback (db : DB) : DB :=
  ⟨db.committed, []⟩

/-! ## CallLedger — `insert_call_log` (`src/ingestion/pipeline/call_log.py`) -/

/-- Embedding of `insert_call_log(...)`: stage one ledger row; the statement itself may
raise (`env.log`), in which case nothing is staged. -/
def insert_call_log (env : Env) (mysql_conn : DB) (snapshot_id : String)
    (page_start page_end : Nat) (status : String) : Except String DB :=
  match env.log (page_start, page_end) status with
  | .error e => .error e
  | .ok _ => .ok (mysql_conn.push (.ledger snapshot_id page_start page_end status))

/-! ## ContentIngester — `ingest_rows_page` (`src/ingestion/pipeline/raw_ingest.py`) -/

/-- The result dict of `ingest_rows_page`. -/
structure IngestResult where
  attempted_rows : Nat
  inserted_rows : Int
  skipped_duplicates : Int
deriving DecidableEq, Repr

/-- Embedding of `ingest_rows_page(...)`: empty pages return zeros without touching the
database; otherwise one bulk insert is staged and `inserted_rows` is the
driver's `rowcount`, with `skipped_duplicates = attempted - inserted`.
A driver failure is re-raised wrapped in `RuntimeError` (its message
prefixed), exactly as the source does; commit/rollback is left to the
caller.  The staged write carries the page's rows; the serialized
`raw_payload`/`payload_hash` columns are deterministic functions of them. -/
def ingest_rows_page (env : Env) (mysql_conn : DB) (snapshot_id : String)
    (page_start page_end : Nat) (rows : List Row) :
    Except String (IngestResult × DB) :=
  if rows.isEmpty then
    .ok (⟨0, 0, 0⟩, mysql_conn)
  else
    match env.ingest (page_start, page_end) rows with
    | .error e => .error ("Raw 데이터 적재 실패: " ++ e)
    | .ok rowcount =>
        .ok (⟨rows.length, rowcount, (rows.length : Int) - rowcount⟩,
          mysql_conn.push (.content snapshot_id page_start page_end rows))

/-! ## SnapshotRunner — `run_snapshot_once` (`src/ingestion/runner/snapshot_runner.py`) -/

/-- One entry of the per-page breakdown (`pages_result` items); `stop` is the
dict's `"end"` key. -/
structure PageResult where
  start : Nat
  stop : Nat
  status : String
  attempted_rows : Nat
  inserted_rows : Int
  skipped_duplicates : Int
  error : Option String
deriving DecidableEq, Repr

/-- The page entry produced by an `except` branch of the runner. -/
def pageErrorResult (start stop : Nat) (e : String) : PageResult :=
  ⟨start, stop, "error", 0, 0, 0, some e⟩

/-- The best-effort error-ledger write inside the runner's `except` branches:
`insert_call_log(status="error")` wrapped in `try: ... except Exception:
pass`, so its own failure leaves the connection state untouched. -/
def bestEffortErrorLog (env : Env) (mysql_conn : DB) (snapshot_id : String)
    (page_start page_end : Nat) : DB :=
  match insert_call_log env mysql_conn snapshot_id page_start page_end "error" with
  | .ok db' => db'
  | .error _ => mysql_conn

/-- The body of the runner's per-range loop (one iteration of
`for start, end in remaining_ranges`): fetch, ledger write, ingest, commit on
success; on any raise, best-effort error-ledger write, rollback, error page
entry with the original exception's message. -/
def processPage (env : Env) (snapshot_id : String) (db : DB) (r : Range) :
    PageResult × DB :=
  let start := r.1
  let stop := r.2
  match env.fetch r with
  | .error e =>
      (pageErrorResult start stop e,
        (bestEffortErrorLog env db snapshot_id start stop).rollback)
  | .ok page_data =>
    match insert_call_log env db snapshot_id start stop "success" with
    | .error e =>
        (pageErrorResult start stop e,
          (bestEffortErrorLog env db snapshot_id start stop).rollback)
    | .ok db1 =>
      match ingest_rows_page env db1 snapshot_id start stop page_data.rows with
      | .error e =>
          (pageErrorResult start stop e,
            (bestEffortErrorLog env db1 snapshot_id start stop).rollback)
      | .ok (ingest_result, db2) =>
          (⟨start, stop, "ok", page_data.rows.length,
            ingest_result.inserted_rows, ingest_result.skipped_duplicates, none⟩,
            db2.commit)

/-- The runner's loop over the remaining ranges, also returning the list of
ranges passed to `provider.fetch_page` (one fetch per range, in order). -/
def processPages (env : Env) (snapshot_id : String) :
    List Range → DB → List PageResult × DB × List Range
  | [], db => ([], db, [])
  | r :: rs, db =>
      let pr := processPage env snapshot_id db r
      let rest := processPages env snapshot_id rs pr.2
      (pr.1 :: rest.1, rest.2.1, r :: rest.2.2)

/-- The probe phase of the dynamic path (`call_ranges is None`, source lines
67–150): fetch page `[0,999]` in isolation, ledger write, ingest, commit; on
success decide the page count from the reported `total_count` (4 when present
and `> 3000`, else 3); on any raise, best-effort error-ledger write, rollback,
fall back to 3 and reset `total_count` to `None`.  Returns the first page's
entry, the connection state, the surfaced `total_count` and the decision. -/
def probeFirstPage (env : Env) (snapshot_id : String) (db : DB) :
    PageResult × DB × Option Int × Nat :=
  let first_page_start := 0
  let first_page_end := 999
  match env.fetch (first_page_start, first_page_end) with
  | .error e =>
      (pageErrorResult first_page_start first_page_end e,
        ((bestEffortErrorLog env db snapshot_id first_page_start
          first_page_end).rollback, none, 3))
  | .ok page_data =>
    match insert_call_log env db snapshot_id first_page_start first_page_end
        "success" with
    | .error e =>
        (pageErrorResult first_page_start first_page_end e,
          ((bestEffortErrorLog env db snapshot_id first_page_start
            first_page_end).rollback, none, 3))
    | .ok db1 =>
      match ingest_rows_page env db1 snapshot_id first_page_start
          first_page_end page_data.rows with
      | .error e =>
          (pageErrorResult first_page_start first_page_end e,
            ((bestEffortErrorLog env db1 snapshot_id first_page_start
              first_page_end).rollback, none, 3))
      | .ok (ingest_result, db2) =>
          let decided_page_count :=
            match page_data.total_count with
            | some t => if t > 3000 then 4 else 3
            | none => 3
          (⟨first_page_start, first_page_end, "ok", page_data.rows.length,
            ingest_result.inserted_rows, ingest_result.skipped_duplicates,
            none⟩,
            (db2.commit, page_data.total_count, decided_page_count))

/-- The returned summary dict of `run_snapshot_once`. -/
structure RunnerResult where
  snapshot_id : String
  ranges : List Range
  pages : List PageResult
  attempted_total : Nat
  inserted_total : Int
  duplicates_total : Int
  errors_total : Nat
  status : String
  total_count : Option Int
  decided_page_count : Option Nat
deriving DecidableEq, Repr

/-- The final summary computation of `run_snapshot_once` (source lines
268–325): totals summed over the per-page entries, error count, status rule,
and the `ranges` field (`call_ranges if call_ranges else []`, which in both
code paths is the remaining-ranges list). -/
def summarizeRun (snapshot_id : String) (ranges : List Range)
    (pages : List PageResult) (total_count : Option Int)
    (decided_page_count : Option Nat) : RunnerResult :=
  let attempted_total := (pages.map (fun p => p.attempted_rows)).sum
  let inserted_total := (pages.map (fun p => p.inserted_rows)).sum
  let duplicates_total := (pages.map (fun p => p.skipped_duplicates)).sum
  let errors_total := (pages.filter (fun p => p.status == "error")).length
  let status :=
    if errors_total = 0 then "ok"
    else if errors_total = pages.length then "error"
    else "partial"
  { snapshot_id := snapshot_id, ranges := ranges, pages := pages
    attempted_total := attempted_total, inserted_total := inserted_total
    duplicates_total := duplicates_total, errors_total := errors_total
    status := status, total_count := total_count
    decided_page_count := decided_page_count }

/-- Embedding of `run_snapshot_once(...)`: with `call_ranges = none` the dynamic path
probes `[0,999]`, decides 3 or 4 total pages and processes the remaining
ranges; with supplied ranges every range is processed as "remaining" and no
probe or decision happens (`total_count = decided_page_count = None`).
Returns the summary, the final connection state and the list of ranges
passed to `provider.fetch_page`, in call order. -/
def run_snapshot_once (env : Env) (snapshot_id : String)
    (call_ranges : Option (List Range)) (db : DB) :
    RunnerResult × DB × List Range :=
  match call_ranges with
  | none =>
      let probe := probeFirstPage env snapshot_id db
      let total_count := probe.2.2.1
      let decided_page_count := probe.2.2.2
      let remaining :=
        if decided_page_count = 4 then
          [(1000, 1999), (2000, 2999), (3000, 3999)]
        else
          [(1000, 1999), (2000, 2999)]
      let rest := processPages env snapshot_id remaining probe.2.1
      (summarizeRun snapshot_id remaining (probe.1 :: rest.1) total_count
        (some decided_page_count),
        rest.2.1, (0, 999) :: rest.2.2)
  | some ranges =>
      let rest := processPages env snapshot_id ranges db
      (summarizeRun snapshot_id ranges rest.1 none none, rest.2.1, rest.2.2)

/-! ## Orchestrator — `run_orchestrator_once` (`src/ingestion/orchestrator.py`) -/

/-- The result dict of `run_orchestrator_once` (absent dict keys of the
blocked outcomes are `none`). -/
structure OrchestratorResult where
  executed : Bool
  reason : String
  snapshot_id : Option String
  last_snapshot_at : Option DateTime
  interval_seconds : Option Int
  elapsed_seconds : Option Int
  total_count : Option Int
  decided_page_count : Option Nat
deriving DecidableEq, Repr

/-- Decimal rendering of `n`, zero-padded to width `w` (a `strftime`
field). -/
def padNum (w n : Nat) : String :=
  let s := toString n
  String.mk (List.replicate (w - s.length) '0') ++ s

/-- Embedding of `now.strftime("%Y%m%d_%H%M%S")` — the minted snapshot identifier. -/
def strftimeSnapshotId (t : DateTime) : String :=
  padNum 4 t.year ++ padNum 2 t.month ++ padNum 2 t.day ++ "_" ++
    padNum 2 t.hour ++ padNum 2 t.minute ++ padNum 2 t.second

/-- Steps 3–6 of `run_orchestrator_once` (budget gate, snapshot-id mint,
runner invocation), reached once the time-policy and interval gates have
passed. -/
def orchestratorBudgetAndRun (env : Env) (now : DateTime)
    (call_ranges : Option (List Range)) (last_snapshot_at : Option DateTime)
    (used_calls_today : Int) (interval_seconds : Int) (db : DB) :
    OrchestratorResult × DB :=
  let budget := check_budget now.date used_calls_today 4
  let elapsed_seconds :=
    last_snapshot_at.map (fun l => now.toSeconds - l.toSeconds)
  if budget.should_collect = false then
    ({ executed := false, reason := "budget_blocked", snapshot_id := none
       last_snapshot_at := last_snapshot_at
       interval_seconds := some interval_seconds
       elapsed_seconds := elapsed_seconds
       total_count := none, decided_page_count := none }, db)
  else
    let snapshot_id := strftimeSnapshotId now
    let snap := run_snapshot_once env snapshot_id call_ranges db
    ({ executed := true, reason := "executed"
       snapshot_id := some snapshot_id
       last_snapshot_at := last_snapshot_at
       interval_seconds := some interval_seconds
       elapsed_seconds := elapsed_seconds
       total_count := snap.1.total_count
       decided_page_count := snap.1.decided_page_count }, snap.2.1)

/-- Embedding of `run_orchestrator_once(...)`: the sequential gate chain — time policy,
elapsed-interval against the most recent prior snapshot (skipped when there
is none), budget with `required_calls=4` — then mint the snapshot id from
`now` and invoke the runner.  `last_snapshot_at` is the external
`get_last_snapshot_at` lookup, already an aware Asia/Seoul instant. -/
def run_orchestrator_once (env : Env) (now : DateTime)
    (call_ranges : Option (List Range)) (last_snapshot_at : Option DateTime)
    (used_calls_today : Int) (db : DB) : OrchestratorResult × DB :=
  let time_policy := decide_collection now
  if time_policy.should_collect = false then
    ({ executed := false, reason := "time_policy_blocked", snapshot_id := none
       last_snapshot_at := none, interval_seconds := none
       elapsed_seconds := none, total_count := none
       decided_page_count := none }, db)
  else
    let interval_seconds := time_policy.interval_seconds
    match last_snapshot_at with
    | some last =>
        let elapsed_seconds := now.toSeconds - last.toSeconds
        if elapsed_seconds < interval_seconds then
          ({ executed := false, reason := "interval_not_elapsed"
             snapshot_id := none, last_snapshot_at := some last
             interval_seconds := some interval_seconds
             elapsed_seconds := some elapsed_seconds
             total_count := none, decided_page_count := none }, db)
        else
          orchestratorBudgetAndRun env now call_ranges (some last)
            used_calls_today interval_seconds db
    | none =>
        orchestratorBudgetAndRun env now call_ranges none used_calls_today
          interval_seconds db

/-! ## Derived definitions used by the verification

`pageCommits` names the writes of a page that survive to the committed
state; the decoder `decodeStr` is the left inverse of JSON string escaping,
used to prove the canonical serialisation uniquely decodable; the `env*`
environments are the concrete provider/driver behaviours of witnesses and
counterexamples. -/

/-- The writes of one remaining-page iteration that survive to the committed
state: on full success the ledger row and (for a nonempty page) the content
row; on any failure nothing — that page's staged writes are rolled back. -/
def pageCommits (env : Env) (sid : String) (r : Range) : List DBWrite :=
  match env.fetch r with
  | .error _ => []
  | .ok pd =>
    match env.log r "success" with
    | .error _ => []
    | .ok _ =>
      if pd.rows.isEmpty then [.ledger sid r.1 r.2 "success"]
      else
        match env.ingest r pd.rows with
        | .error _ => []
        | .ok _ => [.ledger sid r.1 r.2 "success",
            .content sid r.1 r.2 pd.rows]

/-- Numeric value of a lowercase hexadecimal digit (left inverse of
`hexChar`). -/
def hexVal (c : Char) : Nat :=
  if c.toNat ≤ 57 then c.toNat - 48 else c.toNat - 87

/-- Inverse of the two-character named escapes. -/
def unescapeChar (x : Char) : Char :=
  if x = 'n' then '\n'
  else if x = 'r' then '\r'
  else if x = 't' then '\t'
  else if x = 'b' then '\x08'
  else if x = 'f' then '\x0c'
  else x

/-- Decoder of an escaped JSON string body up to its closing quote,
returning the decoded characters and the remainder after the quote; the
left inverse of `escapeChar`-escaping. -/
def decodeStr : List Char → Option (List Char × List Char)
  | [] => none
  | c :: rest =>
    if c = '"' then some ([], rest)
    else if c = '\\' then
      match rest with
      | [] => none
      | x :: rest₂ =>
        if x = 'u' then
          match rest₂ with
          | z1 :: z2 :: a :: b :: rest₃ =>
            if z1 = '0' ∧ z2 = '0' then
              match decodeStr rest₃ with
              | some (s, r) =>
                  some (Char.ofNat (16 * hexVal a + hexVal b) :: s, r)
              | none => none
            else none
          | _ => none
        else
          match decodeStr rest₂ with
          | some (s, r) => some (unescapeChar x :: s, r)
          | none => none
    else
      match decodeStr rest with
      | some (s, r) => some (c :: s, r)
      | none => none

/-- An environment in which every fetch fails (concrete counterexample
environment). -/
def envAllFail : Env where
  fetch := fun _ => .error "boom"
  log := fun _ _ => .ok ()
  ingest := fun _ _ => .ok 0

/-- An environment whose page `[1000,1999]` succeeds with one row and whose
other pages fail (concrete witness environment for the aggregate rule). -/
def envOnePageOk : Env where
  fetch := fun r =>
    if r = (1000, 1999) then .ok ⟨none, [[("k", "v")]]⟩ else .error "HTTP 500"
  log := fun _ _ => .ok ()
  ingest := fun _ _ => .ok 1

/-- An environment where page `[2000,2999]` fails at fetch and every other
call succeeds (concrete witness environment, spec scenario "page 2 of 3"). -/
def envPage2Fails : Env where
  fetch := fun r =>
    if r = (2000, 2999) then .error "HTTP 500"
    else .ok ⟨none, [[("k", "v")]]⟩
  log := fun _ _ => .ok ()
  ingest := fun _ _ => .ok 1

/-- An environment where page `[2000,2999]` fails at fetch and the
error-ledger write for it also fails (concrete witness environment). -/
def envLedgerDown : Env where
  fetch := fun r =>
    if r = (2000, 2999) then .error "HTTP 500"
    else .ok ⟨none, [[("k", "v")]]⟩
  log := fun r s =>
    if r = (2000, 2999) ∧ s = "error" then .error "ledger down" else .ok ()
  ingest := fun _ _ => .ok 1

/-- A quiet environment for the orchestrator witness: no rows anywhere. -/
def envIdle : Env where
  fetch := fun _ => .ok ⟨none, []⟩
  log := fun _ _ => .ok ()
  ingest := fun _ _ => .ok 0

/-! ## Helper lemmas -/

/-- The per-range loop passes every range, in order, to the fetch capability,
regardless of page outcomes. -/
theorem processPages_trace (env : Env) (sid : String) (rs : List Range)
    (db : DB) : (processPages env sid rs db).2.2 = rs := by
  induction rs generalizing db with
  | nil => rfl
  | cons r rs ih => simp [processPages, ih]

/-- The loop produces one page entry per range. -/
theorem processPages_length (env : Env) (sid : String) (rs : List Range)
    (db : DB) : (processPages env sid rs db).1.length = rs.length := by
  induction rs generalizing db with
  | nil => rfl
  | cons r rs ih => simp [processPages, ih]

/-- Status rule of the final summary, for a nonempty page list: `"error"`
iff every page failed, `"ok"` iff none did, `"partial"` otherwise. -/
theorem summarizeRun_status (sid : String) (rs : List Range)
    (pages : List PageResult) (tc : Option Int) (dc : Option Nat)
    (h : pages ≠ []) :
    ((summarizeRun sid rs pages tc dc).status = "error" ↔
      ∀ p ∈ pages, p.status = "error") ∧
    ((summarizeRun sid rs pages tc dc).status = "ok" ↔
      ∀ p ∈ pages, p.status ≠ "error") ∧
    ((summarizeRun sid rs pages tc dc).status = "partial" ↔
      (∃ p ∈ pages, p.status = "error") ∧ ∃ p ∈ pages, p.status ≠ "error") := by
  have hz : ((pages.filter fun p => p.status == "error").length = 0 ↔
      ∀ p ∈ pages, p.status ≠ "error") := by
    rw [← List.countP_eq_length_filter, List.countP_eq_zero]
    simp
  have hl : ((pages.filter fun p => p.status == "error").length =
        pages.length ↔ ∀ p ∈ pages, p.status = "error") := by
    rw [← List.countP_eq_length_filter, List.countP_eq_length]
    simp
  have hne : ¬((∀ p ∈ pages, p.status = "error") ∧
      ∀ p ∈ pages, p.status ≠ "error") := by
    rcases List.exists_mem_of_ne_nil pages h with ⟨p, hp⟩
    rintro ⟨h1, h2⟩
    exact h2 p hp (h1 p hp)
  simp only [summarizeRun]
  split_ifs with h1 h2
  · refine ⟨?_, by simpa using hz.mp h1, ?_⟩
    · simp only [show ¬("ok" = "error") from by decide, false_iff]
      intro hall
      exact hne ⟨hall, hz.mp h1⟩
    · simp only [show ¬("ok" = "partial") from by decide, false_iff]
      rintro ⟨⟨p, hp, hpe⟩, -⟩
      exact (hz.mp h1) p hp hpe
  · refine ⟨by simpa using hl.mp h2, ?_, ?_⟩
    · simp only [show ¬("error" = "ok") from by decide, false_iff]
      intro hnone
      exact hne ⟨hl.mp h2, hnone⟩
    · simp only [show ¬("error" = "partial") from by decide, false_iff]
      rintro ⟨-, ⟨p, hp, hpe⟩⟩
      exact hpe ((hl.mp h2) p hp)
  · have hpos : 0 < (pages.filter fun p => p.status == "error").length :=
      Nat.pos_of_ne_zero h1
    have hlt : (pages.filter fun p => p.status == "error").length <
        pages.length :=
      lt_of_le_of_ne (List.length_filter_le _ _) h2
    refine ⟨?_, ?_, ?_⟩
    · simp only [show ¬("partial" = "error") from by decide, false_iff]
      intro hall
      exact h2 (hl.mpr hall)
    · simp only [show ¬("partial" = "ok") from by decide, false_iff]
      intro hnone
      exact h1 (hz.mpr hnone)
    · simp only [show ("partial" = "partial") from rfl, true_iff]
      constructor
      · rcases List.exists_mem_of_ne_nil _
            (List.ne_nil_of_length_pos hpos) with ⟨p, hp⟩
        have := List.mem_filter.mp hp
        exact ⟨p, this.1, by simpa using this.2⟩
      · by_contra hnone
        push_neg at hnone
        exact absurd (hl.mpr (by simpa using hnone)) h2

/-- Every run's summary is `summarizeRun` applied to its own page list. -/
theorem run_snapshot_once_eq_summarize (env : Env) (sid : String)
    (call_ranges : Option (List Range)) (db : DB) :
    ∃ rs tc dc, (run_snapshot_once env sid call_ranges db).1 =
      summarizeRun sid rs ((run_snapshot_once env sid call_ranges db).1.pages)
        tc dc := by
  cases call_ranges with
  | none => exact ⟨_, _, _, rfl⟩
  | some rs => exact ⟨_, _, _, rfl⟩

/-- C1 counterexample: on the run with an externally supplied empty range
list, every page of the (empty) breakdown vacuously failed, yet the
aggregate status is not `"error"` — the claimed "status = error iff every
attempted page failed" fails at this input. -/
theorem run_snapshot_once_status_counterexample :
    (∀ p ∈ (run_snapshot_once envAllFail "20260101_120000" (some [])
        ⟨[], []⟩).1.pages, p.status = "error") ∧
    (run_snapshot_once envAllFail "20260101_120000" (some [])
        ⟨[], []⟩).1.status ≠ "error" := by
  constructor <;> decide

/-- C1 (amended: for runs attempting at least one page; the zero-page run
returns status `"ok"`): the aggregate totals are the sums of the per-page
values, the error count is the number of failed pages, and the status is
`"error"` iff every attempted page failed, `"ok"` iff none failed,
`"partial"` otherwise. -/
theorem run_snapshot_once_aggregate (env : Env) (sid : String)
    (call_ranges : Option (List Range)) (db : DB)
    (hne : (run_snapshot_once env sid call_ranges db).1.pages ≠ []) :
    (run_snapshot_once env sid call_ranges db).1.attempted_total =
      ((run_snapshot_once env sid call_ranges db).1.pages.map
        (fun p => p.attempted_rows)).sum ∧
    (run_snapshot_once env sid call_ranges db).1.inserted_total =
      ((run_snapshot_once env sid call_ranges db).1.pages.map
        (fun p => p.inserted_rows)).sum ∧
    (run_snapshot_once env sid call_ranges db).1.duplicates_total =
      ((run_snapshot_once env sid call_ranges db).1.pages.map
        (fun p => p.skipped_duplicates)).sum ∧
    (run_snapshot_once env sid call_ranges db).1.errors_total =
      ((run_snapshot_once env sid call_ranges db).1.pages.filter
        (fun p => p.status == "error")).length ∧
    ((run_snapshot_once env sid call_ranges db).1.status = "error" ↔
      ∀ p ∈ (run_snapshot_once env sid call_ranges db).1.pages,
        p.status = "error") ∧
    ((run_snapshot_once env sid call_ranges db).1.status = "ok" ↔
      ∀ p ∈ (run_snapshot_once env sid call_ranges db).1.pages,
        p.status ≠ "error") ∧
    ((run_snapshot_once env sid call_ranges db).1.status = "partial" ↔
      (∃ p ∈ (run_snapshot_once env sid call_ranges db).1.pages,
        p.status = "error") ∧
      ∃ p ∈ (run_snapshot_once env sid call_ranges db).1.pages,
        p.status ≠ "error") := by
  obtain ⟨rs, tc, dc, hr⟩ :=
    run_snapshot_once_eq_summarize env sid call_ranges db
  have hs := summarizeRun_status sid rs
    ((run_snapshot_once env sid call_ranges db).1.pages) tc dc hne
  rw [hr]
  exact ⟨rfl, rfl, rfl, rfl, hs.1, hs.2.1, hs.2.2⟩

/-- C1 witness: a two-page run with one failure is `"partial"`, via the
aggregate rule at a concrete input. -/
theorem run_snapshot_once_aggregate_witness :
    (run_snapshot_once envOnePageOk "20260101_120000"
      (some [(1000, 1999), (2000, 2999)]) ⟨[], []⟩).1.status = "partial" :=
  ((run_snapshot_once_aggregate envOnePageOk "20260101_120000"
    (some [(1000, 1999), (2000, 2999)]) ⟨[], []⟩
    (by decide)).2.2.2.2.2.2).mpr (by decide)

/-- The probe's page-count decision is 4 or 3, and it is 4 exactly when the
whole first-page call succeeded (fetch, ledger write, ingest) and the
reported total-row-count is present and exceeds 3000.  The condition only
mentions the environment's behaviour on range `(0, 999)`. -/
theorem probeFirstPage_decided (env : Env) (sid : String) (db : DB) :
    ((probeFirstPage env sid db).2.2.2 = 4 ∨
      (probeFirstPage env sid db).2.2.2 = 3) ∧
    ((probeFirstPage env sid db).2.2.2 = 4 ↔
      ∃ pd t, env.fetch (0, 999) = .ok pd ∧
        env.log (0, 999) "success" = .ok () ∧
        (pd.rows ≠ [] → ∃ n, env.ingest (0, 999) pd.rows = .ok n) ∧
        pd.total_count = some t ∧ 3000 < t) := by
  unfold probeFirstPage insert_call_log ingest_rows_page
  cases hf : env.fetch (0, 999) with
  | error e => simp [hf]
  | ok pd =>
    cases hl : env.log (0, 999) "success" with
    | error e => simp [hf, hl]
    | ok u =>
      by_cases hrows : pd.rows.isEmpty
      · have hrows' : pd.rows = [] := List.isEmpty_iff.mp hrows
        cases ht : pd.total_count with
        | none => simp [hf, hl, hrows, ht]
        | some t =>
          by_cases hbig : 3000 < t
          · simp [hf, hl, hrows, hrows', ht, hbig, show t > 3000 from hbig]
          · simp only [hrows, hf, hl, ht, if_pos hrows]
            simp_all [show ¬(t > 3000) from hbig]
      · have hrows' : pd.rows ≠ [] := by simpa [List.isEmpty_iff] using hrows
        cases hi : env.ingest (0, 999) pd.rows with
        | error e => simp [hf, hl, hrows, hi, hrows']
        | ok n =>
          cases ht : pd.total_count with
          | none => simp [hf, hl, hrows, hi, ht]
          | some t =>
            by_cases hbig : 3000 < t
            · simp [hf, hl, hrows, hi, ht, hbig,
                show t > 3000 from hbig]
            · simp only [hf, hl, hrows, hi, ht, if_neg]
              simp_all [show ¬(t > 3000) from hbig]

/-- C2: the dynamic path fetches `[0,999]` first; the remaining fetched
ranges are exactly `[1000,1999],[2000,2999],[3000,3999]` when the probe
succeeded with a reported total `> 3000` (decision 4), and exactly
`[1000,1999],[2000,2999]` otherwise (decision 3); `[0,999]` is never
re-fetched, and the decision depends only on the first page's outcome. -/
theorem run_snapshot_once_dynamic_decision (env : Env) (sid : String)
    (db : DB) :
    ((run_snapshot_once env sid none db).2.2.take 1 = [(0, 999)]) ∧
    ((0, 999) ∉ (run_snapshot_once env sid none db).2.2.drop 1) ∧
    ((run_snapshot_once env sid none db).1.decided_page_count = some 4 ∨
      (run_snapshot_once env sid none db).1.decided_page_count = some 3) ∧
    ((run_snapshot_once env sid none db).1.decided_page_count = some 4 ↔
      ∃ pd t, env.fetch (0, 999) = .ok pd ∧
        env.log (0, 999) "success" = .ok () ∧
        (pd.rows ≠ [] → ∃ n, env.ingest (0, 999) pd.rows = .ok n) ∧
        pd.total_count = some t ∧ 3000 < t) ∧
    ((run_snapshot_once env sid none db).1.decided_page_count = some 4 →
      (run_snapshot_once env sid none db).2.2 =
        [(0, 999), (1000, 1999), (2000, 2999), (3000, 3999)]) ∧
    ((run_snapshot_once env sid none db).1.decided_page_count = some 3 →
      (run_snapshot_once env sid none db).2.2 =
        [(0, 999), (1000, 1999), (2000, 2999)]) := by
  obtain ⟨hd34, hd4⟩ := probeFirstPage_decided env sid db
  rcases hd34 with h4 | h3
  · simp [run_snapshot_once, summarizeRun, processPages_trace, h4]
    obtain ⟨pd, t, h1, h2, h3', h4', h5⟩ := hd4.mp h4
    exact ⟨pd, h1, h2, h3', t, h4', h5⟩
  · have hne4 : (probeFirstPage env sid db).2.2.2 ≠ 4 := by omega
    simp [run_snapshot_once, summarizeRun, processPages_trace, h3, hne4]
    intro pd hf hl hi t ht
    by_contra hgt
    push_neg at hgt
    exact hne4 (hd4.mpr ⟨pd, t, hf, hl, hi, ht, hgt⟩)

/-- A page's breakdown entry does not depend on the connection state. -/
theorem processPage_fst_db_irrel (env : Env) (sid : String) (db db' : DB)
    (r : Range) : (processPage env sid db r).1 = (processPage env sid db' r).1 := by
  unfold processPage insert_call_log ingest_rows_page
  cases hf : env.fetch r with
  | error e => rfl
  | ok pd =>
    cases hl : env.log (r.1, r.2) "success" with
    | error e => simp [hl]
    | ok u =>
      by_cases hrows : pd.rows.isEmpty
      · simp [hl, hrows]
      · cases hi : env.ingest (r.1, r.2) pd.rows with
        | error e => simp [hl, hrows, hi]
        | ok n => simp [hl, hrows, hi]

/-- Processing one range from a clean transaction commits exactly that
page's surviving writes. -/
theorem processPage_db (env : Env) (sid : String) (db : DB) (r : Range)
    (h : db.pending = []) :
    (processPage env sid db r).2 =
      ⟨db.committed ++ pageCommits env sid r, []⟩ := by
  obtain ⟨c, p⟩ := db
  simp only at h
  subst h
  cases hf : env.fetch r with
  | error e =>
      cases hle : env.log r "error" <;>
        simp [processPage, pageCommits, insert_call_log, bestEffortErrorLog,
          DB.push, DB.commit, DB.rollback, hf, hle]
  | ok pd =>
    cases hl : env.log r "success" with
    | error e =>
        cases hle : env.log r "error" <;>
          simp [processPage, pageCommits, insert_call_log, bestEffortErrorLog,
            DB.push, DB.commit, DB.rollback, hf, hl, hle]
    | ok u =>
      by_cases hrows : pd.rows.isEmpty
      · simp [processPage, pageCommits, insert_call_log, ingest_rows_page,
          bestEffortErrorLog, DB.push, DB.commit, DB.rollback, hf, hl, hrows]
      · cases hi : env.ingest r pd.rows with
        | error e =>
            cases hle : env.log r "error" <;>
              simp [processPage, pageCommits, insert_call_log,
                ingest_rows_page, bestEffortErrorLog, DB.push, DB.commit,
                DB.rollback, hf, hl, hrows, hi, hle]
        | ok n =>
            simp [processPage, pageCommits, insert_call_log, ingest_rows_page,
              bestEffortErrorLog, DB.push, DB.commit, DB.rollback, hf, hl,
              hrows, hi]

/-- The per-page breakdown is the per-range outcome map. -/
theorem processPages_pages (env : Env) (sid : String) (rs : List Range)
    (db : DB) :
    (processPages env sid rs db).1 =
      rs.map (fun r => (processPage env sid ⟨[], []⟩ r).1) := by
  induction rs generalizing db with
  | nil => rfl
  | cons r rs ih =>
      simp [processPages, ih, processPage_fst_db_irrel env sid db ⟨[], []⟩ r]

/-- Running the loop from a clean transaction commits exactly the surviving
writes of each page, in range order, and leaves nothing pending: a failed
page's writes are rolled back while every other page's writes commit
independently. -/
theorem processPages_db (env : Env) (sid : String) (rs : List Range)
    (db : DB) (h : db.pending = []) :
    (processPages env sid rs db).2.1 =
      ⟨db.committed ++ (rs.map (pageCommits env sid)).flatten, []⟩ := by
  induction rs generalizing db with
  | nil =>
      obtain ⟨c, p⟩ := db
      simp only at h
      subst h
      simp [processPages]
  | cons r rs ih =>
      have hstep := processPage_db env sid db r h
      simp only [processPages]
      rw [hstep] at *
      rw [ih ⟨db.committed ++ pageCommits env sid r, []⟩ rfl]
      simp [List.append_assoc]

/-- A fetch failure yields the error entry carrying the fetch exception's
message. -/
theorem processPage_error_fetch (env : Env) (sid : String) (db : DB)
    (r : Range) (e : String) (hf : env.fetch r = .error e) :
    (processPage env sid db r).1 = pageErrorResult r.1 r.2 e := by
  unfold processPage
  simp [hf]

/-- An ingest failure yields the error entry carrying the wrapped
`RuntimeError` message. -/
theorem processPage_error_ingest (env : Env) (sid : String) (db : DB)
    (r : Range) (pd : PageData) (e : String) (hf : env.fetch r = .ok pd)
    (hl : env.log r "success" = .ok ()) (hrows : pd.rows ≠ [])
    (hi : env.ingest r pd.rows = .error e) :
    (processPage env sid db r).1 =
      pageErrorResult r.1 r.2 ("Raw 데이터 적재 실패: " ++ e) := by
  unfold processPage insert_call_log ingest_rows_page
  simp [hf, hl, hi, hrows, List.isEmpty_iff]

/-- A page that failed at fetch commits nothing. -/
theorem pageCommits_nil_of_fetch_error (env : Env) (sid : String) (r : Range)
    (e : String) (hf : env.fetch r = .error e) :
    pageCommits env sid r = [] := by
  unfold pageCommits
  simp [hf]

/-- A page that failed at ingest commits nothing. -/
theorem pageCommits_nil_of_ingest_error (env : Env) (sid : String)
    (r : Range) (pd : PageData) (e : String) (hf : env.fetch r = .ok pd)
    (hl : env.log r "success" = .ok ()) (hrows : pd.rows ≠ [])
    (hi : env.ingest r pd.rows = .error e) :
    pageCommits env sid r = [] := by
  unfold pageCommits
  simp [hf, hl, hi, List.isEmpty_iff, hrows]

/-! ## C3 and C7 -/

/-- C3: in a run over supplied ranges in which page `i` fails at fetch or at
ingest, that page appears in the breakdown as an error entry, every range is
still fetched (the whole supplied list, in order — including the last one),
the run returns a complete per-page breakdown with at least one counted
error, only the failed page's writes are rolled back (the committed state
gains exactly each page's surviving writes, the failed page contributing
none), and nothing is left pending. -/
theorem run_snapshot_once_page_failure_tolerance (env : Env) (sid : String)
    (l : List Range) (db : DB) (i : Nat)
    (hpend : db.pending = []) (hi : i < l.length)
    (hfail : (∃ e, env.fetch l[i] = .error e) ∨
      (∃ pd e, env.fetch l[i] = .ok pd ∧
        env.log l[i] "success" = .ok () ∧ pd.rows ≠ [] ∧
        env.ingest l[i] pd.rows = .error e)) :
    (run_snapshot_once env sid (some l) db).1.pages.length = l.length ∧
    (∃ e, (run_snapshot_once env sid (some l) db).1.pages[i]? =
      some (pageErrorResult (l[i]).1 (l[i]).2 e)) ∧
    (run_snapshot_once env sid (some l) db).2.2 = l ∧
    (run_snapshot_once env sid (some l) db).2.1 =
      ⟨db.committed ++ (l.map (pageCommits env sid)).flatten, []⟩ ∧
    pageCommits env sid (l[i]) = [] ∧
    1 ≤ (run_snapshot_once env sid (some l) db).1.errors_total := by
  have hpages : (run_snapshot_once env sid (some l) db).1.pages =
      l.map (fun r => (processPage env sid ⟨[], []⟩ r).1) := by
    simp [run_snapshot_once, summarizeRun, processPages_pages]
  have herr : ∃ e, (processPage env sid (⟨[], []⟩ : DB) (l[i])).1 =
      pageErrorResult (l[i]).1 (l[i]).2 e := by
    rcases hfail with ⟨e, hf⟩ | ⟨pd, e, hf, hl, hrows, hing⟩
    · exact ⟨e, processPage_error_fetch env sid _ _ e hf⟩
    · exact ⟨_, processPage_error_ingest env sid _ _ pd e hf hl hrows hing⟩
  have hcommits : pageCommits env sid (l[i]) = [] := by
    rcases hfail with ⟨e, hf⟩ | ⟨pd, e, hf, hl, hrows, hing⟩
    · exact pageCommits_nil_of_fetch_error env sid _ e hf
    · exact pageCommits_nil_of_ingest_error env sid _ pd e hf hl hrows hing
  obtain ⟨e0, he0⟩ := herr
  refine ⟨by simp [hpages], ⟨e0, ?_⟩, ?_, ?_, hcommits, ?_⟩
  · rw [hpages, List.getElem?_map, List.getElem?_eq_getElem hi]
    simp [he0]
  · simp [run_snapshot_once, processPages_trace]
  · simpa [run_snapshot_once] using processPages_db env sid l db hpend
  · have hmem : (processPage env sid (⟨[], []⟩ : DB) (l[i])).1 ∈
        (run_snapshot_once env sid (some l) db).1.pages := by
      rw [hpages]
      exact List.mem_map_of_mem _ (l.getElem_mem hi)
    obtain ⟨rs, tc, dc, hr⟩ :=
      run_snapshot_once_eq_summarize env sid (some l) db
    have : (run_snapshot_once env sid (some l) db).1.errors_total =
        ((run_snapshot_once env sid (some l) db).1.pages.filter
          (fun p => p.status == "error")).length := by
      rw [hr]; rfl
    rw [this, ← List.countP_eq_length_filter]
    refine Nat.succ_le_of_lt (List.countP_pos_iff.mpr ⟨_, hmem, ?_⟩)
    simp [he0, pageErrorResult]

/-- C7: when a page's fetch fails and the best-effort ledger write recording
the failure itself raises, the exception is swallowed: the page is still
recorded as failed with the original fetch error (not the ledger error), its
writes are still rolled back (it commits nothing and nothing stays pending),
and the run still processes every range to completion. -/
theorem run_snapshot_once_error_log_swallowed (env : Env) (sid : String)
    (l : List Range) (db : DB) (i : Nat) (e le : String)
    (hpend : db.pending = []) (hi : i < l.length)
    (hf : env.fetch l[i] = .error e)
    (hlog : env.log (l[i]) "error" = .error le) :
    (run_snapshot_once env sid (some l) db).1.pages.length = l.length ∧
    (run_snapshot_once env sid (some l) db).1.pages[i]? =
      some (pageErrorResult (l[i]).1 (l[i]).2 e) ∧
    (run_snapshot_once env sid (some l) db).2.2 = l ∧
    (run_snapshot_once env sid (some l) db).2.1 =
      ⟨db.committed ++ (l.map (pageCommits env sid)).flatten, []⟩ ∧
    pageCommits env sid (l[i]) = [] := by
  have hpages : (run_snapshot_once env sid (some l) db).1.pages =
      l.map (fun r => (processPage env sid ⟨[], []⟩ r).1) := by
    simp [run_snapshot_once, summarizeRun, processPages_pages]
  refine ⟨by simp [hpages], ?_, ?_, ?_,
    pageCommits_nil_of_fetch_error env sid _ e hf⟩
  · rw [hpages, List.getElem?_map, List.getElem?_eq_getElem hi]
    simp [processPage_error_fetch env sid _ _ e hf]
  · simp [run_snapshot_once, processPages_trace]
  · simpa [run_snapshot_once] using processPages_db env sid l db hpend

/-- C3 witness: page 2 of 3 fails, all three ranges are still fetched and
one error is counted. -/
theorem run_snapshot_once_page_failure_tolerance_witness :
    (run_snapshot_once envPage2Fails "20260101_120000"
      (some [(1000, 1999), (2000, 2999), (3000, 3999)]) ⟨[], []⟩).2.2 =
      [(1000, 1999), (2000, 2999), (3000, 3999)] ∧
    1 ≤ (run_snapshot_once envPage2Fails "20260101_120000"
      (some [(1000, 1999), (2000, 2999), (3000, 3999)]) ⟨[], []⟩).1.errors_total :=
  ⟨(run_snapshot_once_page_failure_tolerance envPage2Fails "20260101_120000"
      [(1000, 1999), (2000, 2999), (3000, 3999)] ⟨[], []⟩ 1 rfl (by decide)
      (Or.inl ⟨"HTTP 500", rfl⟩)).2.2.1,
   (run_snapshot_once_page_failure_tolerance envPage2Fails "20260101_120000"
      [(1000, 1999), (2000, 2999), (3000, 3999)] ⟨[], []⟩ 1 rfl (by decide)
      (Or.inl ⟨"HTTP 500", rfl⟩)).2.2.2.2.2⟩

/-- C7 witness: with the failed page's error-ledger write itself failing,
the breakdown still records the original fetch error and that page commits
nothing. -/
theorem run_snapshot_once_error_log_swallowed_witness :
    (run_snapshot_once envLedgerDown "20260101_120000"
      (some [(1000, 1999), (2000, 2999)]) ⟨[], []⟩).1.pages[1]? =
      some (pageErrorResult 2000 2999 "HTTP 500") ∧
    pageCommits envLedgerDown "20260101_120000" (2000, 2999) = [] :=
  ⟨(run_snapshot_once_error_log_swallowed envLedgerDown "20260101_120000"
      [(1000, 1999), (2000, 2999)] ⟨[], []⟩ 1 "HTTP 500" "ledger down" rfl
      (by decide) rfl rfl).2.1,
   (run_snapshot_once_error_log_swallowed envLedgerDown "20260101_120000"
      [(1000, 1999), (2000, 2999)] ⟨[], []⟩ 1 "HTTP 500" "ledger down" rfl
      (by decide) rfl rfl).2.2.2.2⟩

/-! ## C4 -/

/-- C4: the orchestrator's gates run in the fixed order time-policy,
elapsed-interval (passing when no prior snapshot exists), budget with
`required_calls = 4`; the chain short-circuits at the first failing gate
with that gate's distinct reason and an untouched connection; and exactly
when all gates pass, the runner is invoked, on the same connection, with the
snapshot id minted deterministically from `now`. -/
theorem run_orchestrator_once_gates (env : Env) (now : DateTime)
    (call_ranges : Option (List Range)) (last : Option DateTime)
    (used : Int) (db : DB) :
    ((decide_collection now).should_collect = false →
      run_orchestrator_once env now call_ranges last used db =
        ({ executed := false, reason := "time_policy_blocked"
           snapshot_id := none, last_snapshot_at := none
           interval_seconds := none, elapsed_seconds := none
           total_count := none, decided_page_count := none }, db)) ∧
    (∀ l, (decide_collection now).should_collect = true → last = some l →
      now.toSeconds - l.toSeconds < (decide_collection now).interval_seconds →
      run_orchestrator_once env now call_ranges last used db =
        ({ executed := false, reason := "interval_not_elapsed"
           snapshot_id := none, last_snapshot_at := some l
           interval_seconds := some (decide_collection now).interval_seconds
           elapsed_seconds := some (now.toSeconds - l.toSeconds)
           total_count := none, decided_page_count := none }, db)) ∧
    ((decide_collection now).should_collect = true →
      (∀ l ∈ last,
        (decide_collection now).interval_seconds ≤
          now.toSeconds - l.toSeconds) →
      (check_budget now.date used 4).should_collect = false →
      run_orchestrator_once env now call_ranges last used db =
        ({ executed := false, reason := "budget_blocked", snapshot_id := none
           last_snapshot_at := last
           interval_seconds := some (decide_collection now).interval_seconds
           elapsed_seconds :=
             last.map (fun l => now.toSeconds - l.toSeconds)
           total_count := none, decided_page_count := none }, db)) ∧
    ((decide_collection now).should_collect = true →
      (∀ l ∈ last,
        (decide_collection now).interval_seconds ≤
          now.toSeconds - l.toSeconds) →
      (check_budget now.date used 4).should_collect = true →
      run_orchestrator_once env now call_ranges last used db =
        ({ executed := true, reason := "executed"
           snapshot_id := some (strftimeSnapshotId now)
           last_snapshot_at := last
           interval_seconds := some (decide_collection now).interval_seconds
           elapsed_seconds :=
             last.map (fun l => now.toSeconds - l.toSeconds)
           total_count := (run_snapshot_once env (strftimeSnapshotId now)
             call_ranges db).1.total_count
           decided_page_count := (run_snapshot_once env
             (strftimeSnapshotId now) call_ranges db).1.decided_page_count },
          (run_snapshot_once env (strftimeSnapshotId now)
            call_ranges db).2.1)) ∧
    ((run_orchestrator_once env now call_ranges last used db).1.executed =
        true ↔
      (decide_collection now).should_collect = true ∧
      (∀ l ∈ last,
        (decide_collection now).interval_seconds ≤
          now.toSeconds - l.toSeconds) ∧
      (check_budget now.date used 4).should_collect = true) := by
  by_cases hp : (decide_collection now).should_collect
  · cases last with
    | none =>
        by_cases hb : (check_budget now.date used 4).should_collect <;>
          simp [run_orchestrator_once, orchestratorBudgetAndRun, hp, hb]
    | some l =>
        by_cases hint : now.toSeconds - l.toSeconds <
            (decide_collection now).interval_seconds
        · simp [run_orchestrator_once, hp, hint]
          try omega
        · by_cases hb : (check_budget now.date used 4).should_collect <;>
            simp [run_orchestrator_once, orchestratorBudgetAndRun, hp, hint,
              hb] <;> try omega
  · have hp' : (decide_collection now).should_collect = false := by
      simpa using hp
    simp [run_orchestrator_once, hp']

/-- C4 witness: at 10:00 (normal bucket), one hour after the previous
snapshot, with no calls used, every gate passes and the runner executes
under the id minted from `now`. -/
theorem run_orchestrator_once_gates_witness :
    (run_orchestrator_once envIdle ⟨2026, 1, 5, 10, 0, 0⟩ (some [])
      (some ⟨2026, 1, 5, 9, 0, 0⟩) 0 ⟨[], []⟩).1.executed = true ∧
    (run_orchestrator_once envIdle ⟨2026, 1, 5, 10, 0, 0⟩ (some [])
      (some ⟨2026, 1, 5, 9, 0, 0⟩) 0 ⟨[], []⟩).1.snapshot_id =
      some "20260105_100000" := by
  have h := (run_orchestrator_once_gates envIdle ⟨2026, 1, 5, 10, 0, 0⟩
    (some []) (some ⟨2026, 1, 5, 9, 0, 0⟩) 0 ⟨[], []⟩).2.2.2.1
    (by decide)
    (by intro l hl; obtain rfl : l = ⟨2026, 1, 5, 9, 0, 0⟩ := by
          simpa [eq_comm] using hl
        decide)
    (by decide)
  rw [h]
  exact ⟨rfl, by decide⟩

/-! ## C10, C6, C9, C5 -/

/-- C10: a run invoked with an externally supplied empty range list performs
no fetches and no ledger or content writes, leaves the connection untouched,
and returns aggregate status `"ok"` with all totals zero, an empty per-page
breakdown, and no reported total-row-count or page-count decision. -/
theorem run_snapshot_once_empty_ranges (env : Env) (sid : String) (db : DB) :
    run_snapshot_once env sid (some []) db =
      ({ snapshot_id := sid, ranges := [], pages := [], attempted_total := 0
         inserted_total := 0, duplicates_total := 0, errors_total := 0
         status := "ok", total_count := none, decided_page_count := none },
        db, []) := rfl

/-- C6: the budget guard's remaining count is the clamped difference
`max 0 (daily_limit − used)`, never negative, the run is allowed exactly when
it covers `required_calls`, and `required_calls = 0` always passes. -/
theorem check_budget_spec (today : Date) (used required limit : Int)
    (hu : 0 ≤ used) (hr : 0 ≤ required) :
    (check_budget today used required limit).remaining_calls =
        max 0 (limit - used) ∧
    0 ≤ (check_budget today used required limit).remaining_calls ∧
    ((check_budget today used required limit).should_collect = true ↔
      required ≤ max 0 (limit - used)) ∧
    (required = 0 →
      (check_budget today used required limit).should_collect = true) := by
  simp only [check_budget]
  split_ifs with h1 h2 h2 <;> simp_all <;> omega

/-- C6 witness: `used = 1200 > limit`, `required = 0` still passes with
`remaining = 0`. -/
theorem check_budget_spec_witness :
    (check_budget ⟨2026, 1, 1⟩ 1200 0 1000).remaining_calls =
        max 0 (1000 - 1200) ∧
    0 ≤ (check_budget ⟨2026, 1, 1⟩ 1200 0 1000).remaining_calls ∧
    ((check_budget ⟨2026, 1, 1⟩ 1200 0 1000).should_collect = true ↔
      (0 : Int) ≤ max 0 (1000 - 1200)) ∧
    ((0 : Int) = 0 →
      (check_budget ⟨2026, 1, 1⟩ 1200 0 1000).should_collect = true) :=
  check_budget_spec ⟨2026, 1, 1⟩ 1200 0 1000 (by norm_num) (by norm_num)

/-- C9 counterexample: on a passing input the reason string is
`"budget_ok"`, not the claimed `"ok"`. -/
theorem check_budget_reason_counterexample :
    (check_budget ⟨2026, 1, 1⟩ 0 0 1000).should_collect = true ∧
    (check_budget ⟨2026, 1, 1⟩ 0 0 1000).reason ≠ "ok" := by
  constructor <;> decide

/-- C9 (amended): the reason is exactly `"budget_ok"` when the guard passes
and exactly `"budget_exceeded"` when it blocks. -/
theorem check_budget_reason_spec (today : Date) (used required limit : Int) :
    ((check_budget today used required limit).should_collect = true →
      (check_budget today used required limit).reason = "budget_ok") ∧
    ((check_budget today used required limit).should_collect = false →
      (check_budget today used required limit).reason = "budget_exceeded") := by
  simp only [check_budget]
  split_ifs <;> simp

/-- C9 witness: both reason strings realised at concrete inputs. -/
theorem check_budget_reason_spec_witness :
    ((check_budget ⟨2026, 1, 1⟩ 0 4 1000).should_collect = true →
      (check_budget ⟨2026, 1, 1⟩ 0 4 1000).reason = "budget_ok") ∧
    ((check_budget ⟨2026, 1, 1⟩ 0 4 1000).should_collect = false →
      (check_budget ⟨2026, 1, 1⟩ 0 4 1000).reason = "budget_exceeded") :=
  check_budget_reason_spec ⟨2026, 1, 1⟩ 0 4 1000

/-- C5: commute windows `[07:00:00, 09:30:00]` and `[17:30:00, 20:00:00]`
give `should_run = true` with interval 120; the night window
`[00:30:00, 05:00:00]` (which takes precedence) gives `should_run = false`
with the exact positive number of seconds until the next `05:00:01` (never
requiring the day roll, the whole window lying before it); every other
instant gives `should_run = true` with interval 900. -/
theorem decide_collection_spec (now : DateTime) (hv : now.Valid) :
    ((25200 ≤ now.timeOfDay ∧ now.timeOfDay ≤ 34200) ∨
        (63000 ≤ now.timeOfDay ∧ now.timeOfDay ≤ 72000) →
      (decide_collection now).should_collect = true ∧
      (decide_collection now).interval_seconds = 120) ∧
    (1800 ≤ now.timeOfDay ∧ now.timeOfDay ≤ 18000 →
      (decide_collection now).should_collect = false ∧
      (decide_collection now).interval_seconds =
        18001 - (now.timeOfDay : Int) ∧
      0 < (decide_collection now).interval_seconds) ∧
    (¬(25200 ≤ now.timeOfDay ∧ now.timeOfDay ≤ 34200) →
      ¬(63000 ≤ now.timeOfDay ∧ now.timeOfDay ≤ 72000) →
      ¬(1800 ≤ now.timeOfDay ∧ now.timeOfDay ≤ 18000) →
      (decide_collection now).should_collect = true ∧
      (decide_collection now).interval_seconds = 900) := by
  simp only [decide_collection, COMMUTE_INTERVAL_SECONDS,
    NORMAL_INTERVAL_SECONDS]
  split_ifs with h1 h2 h3 <;>
    refine ⟨fun hc => ?_, fun hn => ?_, fun hm he hn => ?_⟩ <;>
    simp_all <;> omega

/-- C5 witness: 08:00:00 is in the morning window; the hypotheses are
discharged at a concrete valid instant. -/
theorem decide_collection_spec_witness :
    ((25200 ≤ (DateTime.mk 2026 1 5 8 0 0).timeOfDay ∧
        (DateTime.mk 2026 1 5 8 0 0).timeOfDay ≤ 34200) ∨
      (63000 ≤ (DateTime.mk 2026 1 5 8 0 0).timeOfDay ∧
        (DateTime.mk 2026 1 5 8 0 0).timeOfDay ≤ 72000) →
      (decide_collection (DateTime.mk 2026 1 5 8 0 0)).should_collect = true ∧
      (decide_collection (DateTime.mk 2026 1 5 8 0 0)).interval_seconds =
        120) ∧
    (1800 ≤ (DateTime.mk 2026 1 5 8 0 0).timeOfDay ∧
        (DateTime.mk 2026 1 5 8 0 0).timeOfDay ≤ 18000 →
      (decide_collection (DateTime.mk 2026 1 5 8 0 0)).should_collect =
        false ∧
      (decide_collection (DateTime.mk 2026 1 5 8 0 0)).interval_seconds =
        18001 - ((DateTime.mk 2026 1 5 8 0 0).timeOfDay : Int) ∧
      0 < (decide_collection (DateTime.mk 2026 1 5 8 0 0)).interval_seconds) ∧
    (¬(25200 ≤ (DateTime.mk 2026 1 5 8 0 0).timeOfDay ∧
        (DateTime.mk 2026 1 5 8 0 0).timeOfDay ≤ 34200) →
      ¬(63000 ≤ (DateTime.mk 2026 1 5 8 0 0).timeOfDay ∧
        (DateTime.mk 2026 1 5 8 0 0).timeOfDay ≤ 72000) →
      ¬(1800 ≤ (DateTime.mk 2026 1 5 8 0 0).timeOfDay ∧
        (DateTime.mk 2026 1 5 8 0 0).timeOfDay ≤ 18000) →
      (decide_collection (DateTime.mk 2026 1 5 8 0 0)).should_collect = true ∧
      (decide_collection (DateTime.mk 2026 1 5 8 0 0)).interval_seconds =
        900) :=
  decide_collection_spec (DateTime.mk 2026 1 5 8 0 0) (by decide)

/-! ## C8 — content hash -/

/-- The function `hexVal` inverts `hexChar` on digit values. -/
theorem hexVal_hexChar (d : Nat) (h : d < 16) : hexVal (hexChar d) = d := by
  interval_cases d <;> decide

/-- Decoding inverts escaping: the decoder recovers the original characters
and the remainder after the closing quote. -/
theorem decodeStr_roundtrip (s r : List Char) :
    decodeStr ((s.map escapeChar).flatten ++ '"' :: r) = some (s, r) := by
  induction s with
  | nil =>
      rw [List.map_nil, List.flatten_nil, List.nil_append, decodeStr.eq_def]
      simp
  | cons c t ih =>
    by_cases h1 : c = '"'
    · subst h1
      simp only [List.map_cons, List.flatten_cons, List.append_assoc,
        escapeChar, if_pos rfl, List.cons_append, List.nil_append]
      rw [decodeStr.eq_def]
      simp [unescapeChar, ih]
    · by_cases h2 : c = '\\'
      · subst h2
        simp [escapeChar, h1]
        rw [decodeStr.eq_def]
        simp [unescapeChar, ih]
      · by_cases h3 : c = '\n'
        · subst h3
          simp [escapeChar]
          rw [decodeStr.eq_def]
          simp [unescapeChar, ih]
        · by_cases h4 : c = '\r'
          · subst h4
            simp [escapeChar]
            rw [decodeStr.eq_def]
            simp [unescapeChar, ih]
          · by_cases h5 : c = '\t'
            · subst h5
              simp [escapeChar]
              rw [decodeStr.eq_def]
              simp [unescapeChar, ih]
            · by_cases h6 : c = '\x08'
              · subst h6
                simp [escapeChar]
                rw [decodeStr.eq_def]
                simp [unescapeChar, ih]
              · by_cases h7 : c = '\x0c'
                · subst h7
                  simp [escapeChar]
                  rw [decodeStr.eq_def]
                  simp [unescapeChar, ih]
                · by_cases h8 : c.toNat < 32
                  · have e1 : hexVal (hexChar (c.toNat / 16)) = c.toNat / 16 :=
                      hexVal_hexChar _ (by omega)
                    have e2 : hexVal (hexChar (c.toNat % 16)) = c.toNat % 16 :=
                      hexVal_hexChar _ (by omega)
                    simp [escapeChar, h1, h2, h3, h4, h5, h6, h7, h8]
                    rw [decodeStr.eq_def]
                    simp [e1, e2, Nat.div_add_mod, Char.ofNat_toNat, ih]
                  · simp [escapeChar, h1, h2, h3, h4, h5, h6, h7, h8]
                    rw [decodeStr.eq_def]
                    simp [h1, h2, ih]

/-- An escaped, quote-terminated segment determines the original string and
the remainder. -/
theorem escaped_quoted_inj (s₁ s₂ r₁ r₂ : List Char)
    (h : (s₁.map escapeChar).flatten ++ '"' :: r₁ =
      (s₂.map escapeChar).flatten ++ '"' :: r₂) : s₁ = s₂ ∧ r₁ = r₂ := by
  have h1 := decodeStr_roundtrip s₁ r₁
  rw [h, decodeStr_roundtrip s₂ r₂] at h1
  obtain ⟨hs, hr⟩ : s₂ = s₁ ∧ r₂ = r₁ := by simpa using h1
  exact ⟨hs.symm, hr.symm⟩

/-- A serialised item determines its key, its value and the remainder. -/
theorem itemChars_append_inj (kv₁ kv₂ : String × String) (x₁ x₂ : List Char)
    (h : itemChars kv₁ ++ x₁ = itemChars kv₂ ++ x₂) :
    kv₁ = kv₂ ∧ x₁ = x₂ := by
  simp only [itemChars, List.cons_append, List.append_assoc, List.cons.injEq,
    true_and] at h
  obtain ⟨hk, h'⟩ := escaped_quoted_inj _ _ _ _ h
  simp only [List.cons.injEq, true_and] at h'
  obtain ⟨hv, hx⟩ := escaped_quoted_inj _ _ _ _ h'
  exact ⟨Prod.ext (String.ext hk) (String.ext hv), hx⟩

/-- The serialised item list (up to the closing brace) determines the items
and the remainder. -/
theorem itemsChars_append_inj : ∀ i₁ i₂ : List (String × String),
    ∀ r₁ r₂ : List Char,
    itemsChars i₁ ++ '}' :: r₁ = itemsChars i₂ ++ '}' :: r₂ →
    i₁ = i₂ ∧ r₁ = r₂ := by
  intro i₁
  induction i₁ with
  | nil =>
      intro i₂ r₁ r₂ h
      cases i₂ with
      | nil => simpa [itemsChars] using h
      | cons kv₂ t₂ =>
          cases t₂ <;> simp [itemsChars, itemChars] at h
  | cons kv t ih =>
      intro i₂ r₁ r₂ h
      cases i₂ with
      | nil => cases t <;> simp [itemsChars, itemChars] at h
      | cons kv₂ t₂ =>
          cases t with
          | nil =>
              cases t₂ with
              | nil =>
                  simp only [itemsChars] at h
                  obtain ⟨hkv, hx⟩ := itemChars_append_inj _ _ _ _ h
                  simp only [List.cons.injEq, true_and] at hx
                  exact ⟨by rw [hkv], hx⟩
              | cons kv₂' t₂' =>
                  simp only [itemsChars, List.cons_append,
                    List.append_assoc] at h
                  obtain ⟨-, hx⟩ := itemChars_append_inj _ _ _ _ h
                  simp at hx
          | cons kv' t' =>
              cases t₂ with
              | nil =>
                  simp only [itemsChars, List.cons_append,
                    List.append_assoc] at h
                  obtain ⟨-, hx⟩ := itemChars_append_inj _ _ _ _ h
                  simp at hx
              | cons kv₂' t₂' =>
                  simp only [itemsChars, List.cons_append,
                    List.append_assoc] at h
                  obtain ⟨hkv, hx⟩ := itemChars_append_inj _ _ _ _ h
                  simp only [List.cons.injEq, true_and] at hx
                  obtain ⟨hi, hr⟩ := ih (kv₂' :: t₂') r₁ r₂ hx
                  exact ⟨by rw [hkv, hi], hr⟩

/-- The canonical JSON serialisation is injective on item lists. -/
theorem jsonSerializeItems_inj (i₁ i₂ : List (String × String))
    (h : jsonSerializeItems i₁ = jsonSerializeItems i₂) : i₁ = i₂ := by
  have h' : itemsChars i₁ ++ ['}'] = itemsChars i₂ ++ ['}'] := by
    have hd := String.ext_iff.mp h
    simpa [jsonSerializeItems] using hd
  exact (itemsChars_append_inj i₁ i₂ [] [] h').1

/-- One compression step yields eight words. -/
theorem compressBlock_length (hs block : List Nat) :
    (compressBlock hs block).length = 8 := rfl

/-- A SHA-256 digest is eight words. -/
theorem sha256Words_length (msg : List Nat) :
    (sha256Words msg).length = 8 := by
  have hfold : ∀ (bs : List (List Nat)) (hs : List Nat), hs.length = 8 →
      (bs.foldl compressBlock hs).length = 8 := by
    intro bs
    induction bs with
    | nil => intro hs h; simpa using h
    | cons b bs ih =>
        intro hs h
        simpa [List.foldl_cons] using ih _ (compressBlock_length hs b)
  exact hfold _ shaH0 rfl

/-- The hash digit list has exactly 64 entries. -/
theorem payloadHashDigits_length (m : Row) :
    (payloadHashDigits m).length = 64 := by
  unfold payloadHashDigits
  rw [List.length_flatten, List.map_map]
  have hrep : List.map (List.length ∘ hexDigitsOfWord)
      (sha256Words (strUtf8 (jsonSerializeItems
        (List.insertionSort itemLe m)))) =
      List.replicate (List.map (List.length ∘ hexDigitsOfWord)
        (sha256Words (strUtf8 (jsonSerializeItems
          (List.insertionSort itemLe m))))).length 8 := by
    apply List.eq_replicate_of_mem
    intro b hb
    simp only [List.mem_map] at hb
    obtain ⟨w, -, rfl⟩ := hb
    simp [Function.comp, hexDigitsOfWord]
  rw [hrep, List.sum_replicate, List.length_map, sha256Words_length]
  simp

/-- Every hash digit value is below 16. -/
theorem payloadHashDigits_lt (m : Row) :
    ∀ d ∈ payloadHashDigits m, d < 16 := by
  intro d hd
  unfold payloadHashDigits at hd
  simp only [List.mem_flatten, List.mem_map, hexDigitsOfWord] at hd
  obtain ⟨l, ⟨w, -, rfl⟩, hdl⟩ := hd
  simp only [List.mem_map, List.mem_range] at hdl
  obtain ⟨i, -, rfl⟩ := hdl
  omega

/-- Sorting is permutation-invariant: permuted item lists sort to the same
canonical list. -/
theorem sortItems_eq_of_perm (m₁ m₂ : Row) (h : m₁.Perm m₂) :
    List.insertionSort itemLe m₁ = List.insertionSort itemLe m₂ :=
  List.eq_of_perm_of_sorted
    ((List.perm_insertionSort itemLe m₁).trans
      (h.trans (List.perm_insertionSort itemLe m₂).symm))
    (List.sorted_insertionSort itemLe m₁)
    (List.sorted_insertionSort itemLe m₂)

/-- C8 counterexample: the hash does not separate all value differences —
two single-key mappings with different values share a digest (pigeonhole:
infinitely many values, finitely many 64-digit outputs), refuting "differs
whenever any value differs" as stated. -/
theorem compute_payload_hash_collision_counterexample :
    ∃ v₁ v₂ : String, v₁ ≠ v₂ ∧
      compute_payload_hash [("k", v₁)] = compute_payload_hash [("k", v₂)] := by
  have hdig : ∀ n : ℕ, ∀ i : Fin 64,
      (payloadHashDigits
        [("k", String.mk (List.replicate n 'a'))]).getD i.val 0 < 16 := by
    intro n i
    by_cases hi : i.val <
        (payloadHashDigits [("k", String.mk (List.replicate n 'a'))]).length
    · rw [List.getD_eq_getElem _ _ hi]
      exact payloadHashDigits_lt _ _ (List.getElem_mem hi)
    · rw [List.getD_eq_default _ _ (by omega)]
      norm_num
  obtain ⟨n, m, hnm, hF⟩ := Finite.exists_ne_map_eq_of_infinite
    (fun n : ℕ => fun i : Fin 64 =>
      (⟨(payloadHashDigits
          [("k", String.mk (List.replicate n 'a'))]).getD i.val 0,
        hdig n i⟩ : Fin 16))
  refine ⟨String.mk (List.replicate n 'a'), String.mk (List.replicate m 'a'),
    ?_, ?_⟩
  · intro hc
    apply hnm
    have := congrArg (fun s => s.data.length) hc
    simpa using this
  · have hdeq : payloadHashDigits [("k", String.mk (List.replicate n 'a'))] =
        payloadHashDigits [("k", String.mk (List.replicate m 'a'))] := by
      apply List.ext_getElem
        (by rw [payloadHashDigits_length, payloadHashDigits_length])
      intro i h1 h2
      have h64 : i < 64 := by rwa [payloadHashDigits_length] at h1
      have hv : (payloadHashDigits
            [("k", String.mk (List.replicate n 'a'))]).getD i 0 =
          (payloadHashDigits
            [("k", String.mk (List.replicate m 'a'))]).getD i 0 :=
        congrArg Fin.val (congrFun hF ⟨i, h64⟩)
      rw [List.getD_eq_getElem _ _ h1, List.getD_eq_getElem _ _ h2] at hv
      exact hv
    unfold compute_payload_hash
    rw [hdeq]

/-- C8 (amended: the digest does not change when only the order of the pairs
changes, and cannot coincide on content-distinct mappings unless SHA-256
itself collides): the hash is a 64-character lowercase-hex string for every
mapping including the empty one; mappings with identical key-value pairs
hash identically; and the canonical serialisations of two mappings coincide
only when the mappings carry the same pairs — so differing values force
different serialised inputs to the digest. -/
theorem compute_payload_hash_spec :
    (∀ m : Row, (compute_payload_hash m).length = 64 ∧
      ∀ c ∈ (compute_payload_hash m).data, c ∈ ("0123456789abcdef").data) ∧
    (∀ m₁ m₂ : Row, m₁.Perm m₂ →
      compute_payload_hash m₁ = compute_payload_hash m₂) ∧
    (∀ m₁ m₂ : Row,
      jsonSerializeItems (List.insertionSort itemLe m₁) =
        jsonSerializeItems (List.insertionSort itemLe m₂) →
      m₁.Perm m₂) := by
  refine ⟨fun m => ⟨?_, ?_⟩, fun m₁ m₂ h => ?_, fun m₁ m₂ h => ?_⟩
  · simp [compute_payload_hash, String.length, payloadHashDigits_length]
  · intro c hc
    simp only [compute_payload_hash, List.mem_map] at hc
    obtain ⟨d, hd, rfl⟩ := hc
    have hd16 := payloadHashDigits_lt m d hd
    have hall : ∀ d' < 16, hexChar d' ∈ ("0123456789abcdef").data := by decide
    exact hall d hd16
  · unfold compute_payload_hash payloadHashDigits
    rw [sortItems_eq_of_perm m₁ m₂ h]
  · have hs := jsonSerializeItems_inj _ _ h
    have h₁ := List.perm_insertionSort itemLe m₁
    have h₂ := List.perm_insertionSort itemLe m₂
    exact h₁.symm.trans (hs ▸ h₂)

/-- C8 witness: reordering a concrete two-key mapping leaves the hash
unchanged, via the permutation-invariance part at a concrete input. -/
theorem compute_payload_hash_spec_witness :
    ([("a", "1"), ("b", "2")] : Row).Perm [("b", "2"), ("a", "1")] ∧
    compute_payload_hash [("a", "1"), ("b", "2")] =
      compute_payload_hash [("b", "2"), ("a", "1")] :=
  ⟨List.Perm.swap _ _ _,
    compute_payload_hash_spec.2.1 _ _ (List.Perm.swap _ _ _)⟩

end KoreanTraffic
